import Mathlib

/-!
Verification development for the KREN_C trading engine (`ter_main_us.py`).

The file shallowly embeds the parts of the program the claims are about:
the `StatusManager` (position and risk tracker plus the virtual-balance
ledger), the session scheduler, the indicator engine, the per-symbol rule
bodies of the strategy thread (phases A, B and C) and the TWAP execution
splitter (phase D).  Python floats (prices, rates, epoch timestamps) are
embedded as rationals, share quantities as integers, and Python dicts with
string keys as association lists.  Broker and network calls are modelled by
boolean success parameters; the durable status file is modelled as a second
copy of the status data that a successful save overwrites.
-/

/-- Lookup in a Python-style dict modelled as an association list:
`d.get(k)`, returning the value of the first matching key. -/
def dictGet {β : Type} (m : List (String × β)) (k : String) : Option β :=
  match m with
  | [] => none
  | (k', v) :: rest => if k' = k then some v else dictGet rest k

/-- Python dict assignment `d[k] = v`: replace the existing binding in
place, or append a fresh one. -/
def dictSet {β : Type} (m : List (String × β)) (k : String) (v : β) :
    List (String × β) :=
  match m with
  | [] => [(k, v)]
  | (k', v') :: rest =>
    if k' = k then (k, v) :: rest else (k', v') :: dictSet rest k v

/-- Python `del d[k]`: drop the first binding of the key. -/
def dictDel {β : Type} (m : List (String × β)) (k : String) :
    List (String × β) :=
  match m with
  | [] => []
  | (k', v') :: rest => if k' = k then rest else (k', v') :: dictDel rest k

/-- Python `d.get(k, default)`. -/
def dictGetD {β : Type} (m : List (String × β)) (k : String) (d : β) : β :=
  (dictGet m k).getD d

/-- Truncation toward zero, which is what Python `int(x)` does on a float. -/
def truncQ (x : ℚ) : ℤ :=
  if 0 ≤ x then ⌊x⌋ else ⌈x⌉

/-- Python `round(x, 2)` (banker's rounding, half to even), used by the
program for limit prices such as `round(curr * 0.95, 2)`. -/
def pyRound2 (x : ℚ) : ℚ :=
  let y := x * 100
  let f : ℤ := ⌊y⌋
  let r := y - f
  let n : ℤ :=
    if r < 1 / 2 then f
    else if 1 / 2 < r then f + 1
    else if f % 2 = 0 then f else f + 1
  (n : ℚ) / 100

/-- Content of the persisted status file `status_us.json`, and of the
in-memory `self.data` dict of `StatusManager`: the phase-A one-shot flag,
the per-symbol max-profit map and the per-symbol ignore-sync expiry map.
`max_profit` values are percentages; `ignore_list` values are epoch
seconds. -/
structure StatusData where
  phase_a_done : Bool
  max_profit : List (String × ℚ)
  ignore_list : List (String × ℚ)
deriving DecidableEq, Repr

/-- A virtual-balance ledger entry recorded by `record_pending_buy`:
submitted quantity, submission epoch time, and the snapshot of the real
quantity at submission. -/
structure PendingInfo where
  qty : ℤ
  time : ℚ
  initial_qty : ℤ
deriving DecidableEq, Repr

/-- The `StatusManager` state: the in-memory `data` dict, the content of
the durable store (the status file), and the in-memory (not persisted)
`pending_buys` ledger. -/
structure StatusMgr where
  data : StatusData
  store : StatusData
  pending_buys : List (String × PendingInfo)
deriving DecidableEq, Repr

/-- The defaults `StatusManager._load` falls back to when the status file
is missing or corrupt; the durable store starts out with the same content. -/
def initStatus : StatusMgr :=
  { data := ⟨false, [], []⟩, store := ⟨false, [], []⟩, pending_buys := [] }

/-- `StatusManager._save`: a synchronous best-effort write of `self.data`
to the status file.  The Python body swallows every exception, so a failed
write (modelled by `ok = false`) leaves the durable store untouched and is
reported to nobody. -/
def saveStatus (ok : Bool) (st : StatusMgr) : StatusMgr :=
  if ok then { st with store := st.data } else st

/-- `StatusManager.get_max_profit`: `self.data["max_profit"].get(symbol, 0.0)`. -/
def get_max_profit (st : StatusMgr) (sym : String) : ℚ :=
  dictGetD st.data.max_profit sym 0

/-- `StatusManager.update_max_profit`: stores `rate` and saves when
`rate > self.data["max_profit"].get(symbol, -999.0)`.  `ok` is the success
of the durable write. -/
def update_max_profit (st : StatusMgr) (sym : String) (rate : ℚ)
    (ok : Bool) : StatusMgr :=
  if dictGetD st.data.max_profit sym (-999) < rate then
    saveStatus ok
      { st with data :=
          { st.data with max_profit := dictSet st.data.max_profit sym rate } }
  else st

/-- `StatusManager.reset_max_profit`: deletes the symbol entry and saves,
when the entry exists. -/
def reset_max_profit (st : StatusMgr) (sym : String) (ok : Bool) : StatusMgr :=
  if (dictGet st.data.max_profit sym).isSome then
    saveStatus ok
      { st with data :=
          { st.data with max_profit := dictDel st.data.max_profit sym } }
  else st

/-- `StatusManager.set_phase_a_done`. -/
def set_phase_a_done (st : StatusMgr) (done : Bool) (ok : Bool) : StatusMgr :=
  saveStatus ok { st with data := { st.data with phase_a_done := done } }

/-- `StatusManager.set_ignore_sync`: records `time.time() + duration` as the
ignore-sync expiry of the symbol and saves. -/
def set_ignore_sync (st : StatusMgr) (sym : String) (duration : ℚ)
    (now : ℚ) (ok : Bool) : StatusMgr :=
  saveStatus ok
    { st with data :=
        { st.data with ignore_list := dictSet st.data.ignore_list sym (now + duration) } }

/-- `StatusManager.is_sync_ignored`: true while
`time.time() < self.data["ignore_list"].get(symbol, 0)`. -/
def is_sync_ignored (st : StatusMgr) (sym : String) (now : ℚ) : Bool :=
  decide (now < dictGetD st.data.ignore_list sym 0)

/-- `StatusManager.reset_daily`: resets the phase-A flag, both per-symbol
maps and the pending-buy ledger, then saves. -/
def reset_daily (st : StatusMgr) (ok : Bool) : StatusMgr :=
  saveStatus ok { st with data := ⟨false, [], []⟩, pending_buys := [] }

/-- `StatusManager.record_pending_buy`: unconditional dict assignment of
the new entry for the symbol. -/
def record_pending_buy (st : StatusMgr) (sym : String) (qty : ℤ)
    (now : ℚ) (current_qty : ℤ) : StatusMgr :=
  { st with pending_buys := dictSet st.pending_buys sym ⟨qty, now, current_qty⟩ }

/-- `StatusManager.get_virtual_qty`: returns the quantity the strategy
should size against, dropping the pending entry when the real quantity has
risen past the snapshot or when more than 600 seconds have elapsed;
otherwise inflates the real quantity by the pending quantity.  Returns the
quantity together with the updated manager state. -/
def get_virtual_qty (st : StatusMgr) (sym : String) (current_qty : ℤ)
    (now : ℚ) : ℤ × StatusMgr :=
  match dictGet st.pending_buys sym with
  | none => (current_qty, st)
  | some info =>
    if info.initial_qty < current_qty then
      (current_qty, { st with pending_buys := dictDel st.pending_buys sym })
    else if 600 < now - info.time then
      (current_qty, { st with pending_buys := dictDel st.pending_buys sym })
    else
      (current_qty + info.qty, st)

/-- Minutes since midnight for a wall-clock `HH:MM`; lexicographic
comparison of the zero-padded `"HH:MM"` strings the program compares is
the numeric order on this value. -/
def hm (h m : Nat) : Nat :=
  h * 60 + m

/-- The window gates evaluated by one tick of `strategy_thread`: the
weekend / pre-market / post-close guards each `continue` past the phases,
and phases A ("09:30" to "09:40"), B ("09:30" to "15:50") and
C ("15:50" to "16:00") are gated by string range checks on the
New-York-time clock. -/
structure MarketWindows where
  weekend : Bool
  preMarket : Bool
  postClose : Bool
  opening : Bool
  regular : Bool
  closing : Bool
deriving DecidableEq, Repr

/-- Classify a New-York timestamp (weekday, `0` = Monday, and minutes
since midnight) into the tick windows of `strategy_thread`. -/
def classifyTick (weekday : Nat) (t : Nat) : MarketWindows :=
  if 5 ≤ weekday then ⟨true, false, false, false, false, false⟩
  else if t < hm 9 30 then ⟨false, true, false, false, false, false⟩
  else if hm 16 0 ≤ t then ⟨false, false, true, false, false, false⟩
  else
    ⟨false, false, false,
      decide (hm 9 30 ≤ t ∧ t < hm 9 40),
      decide (hm 9 30 ≤ t ∧ t < hm 15 50),
      decide (hm 15 50 ≤ t ∧ t < hm 16 0)⟩

/-- `get_market_status`: weekday timestamps are open exactly in
`"09:30" <= t < "16:00"`; Saturday and Sunday are closed outright. -/
def get_market_status (weekday : Nat) (t : Nat) : Bool :=
  if 5 ≤ weekday then false
  else decide (hm 9 30 ≤ t ∧ t < hm 16 0)

/-- One daily OHLC bar of the fetched history (a row of the pandas frame). -/
structure Bar where
  Open : ℚ
  High : ℚ
  Low : ℚ
  Close : ℚ
deriving DecidableEq, Repr

/-- The dict returned by `calculate_indicators`. -/
structure Inds where
  SMA20 : ℚ
  SMA120 : ℚ
  BB_LOW : ℚ
  PREV_SMA20 : ℚ
  PREV_CLOSE : ℚ
  TODAY_OPEN : ℚ
  ADX : ℚ
  BB_UP : ℚ
deriving DecidableEq, Repr

/-- The trailing window of length `w` of a series: the window that the
last element of a pandas `rolling(w)` aggregate is computed over. -/
def lastN (w : Nat) (xs : List ℚ) : List ℚ :=
  xs.drop (xs.length - w)

/-- Mean of a series (pandas `.mean()` over one rolling window). -/
def listMean (xs : List ℚ) : ℚ :=
  xs.sum / (xs.length : ℚ)

/-- Sample variance of a series with the pandas default `ddof = 1`; the
rolling standard deviation of the source is its square root. -/
def sampleVar (xs : List ℚ) : ℚ :=
  ((xs.map (fun x => (x - listMean xs) ^ 2)).sum) / ((xs.length : ℚ) - 1)

/-- The last element of a series, `iloc[-1]`. -/
def ilocLast (xs : List ℚ) : ℚ :=
  (xs.getLast?).getD 0

/-- One row of the directional-movement frame built by
`calculate_indicators`: true range and the positive and negative
directional movements. -/
structure AdxRow where
  tr : ℚ
  pdm : ℚ
  ndm : ℚ
deriving DecidableEq, Repr

/-- Directional-movement rows for all bars after the first, each computed
from its predecessor: `up = High - High.shift(1)`,
`down = Low.shift(1) - Low`, true range as the max of the three ranges,
and the sign-and-magnitude gated movements. -/
def adxRowsAux (prev : Bar) : List Bar → List AdxRow
  | [] => []
  | b :: bs =>
    let up := b.High - prev.High
    let down := prev.Low - b.Low
    let tr := max (b.High - b.Low) (max |b.High - prev.Close| |b.Low - prev.Close|)
    let pdm := if down < up ∧ 0 < up then up else 0
    let ndm := if up < down ∧ 0 < down then down else 0
    ⟨tr, pdm, ndm⟩ :: adxRowsAux b bs

/-- Directional-movement rows for the whole history.  On the first bar the
shifted columns are NaN: the NaN comparisons leave both movements at `0`,
and the row max skips the NaN entries, leaving `High - Low` as the true
range. -/
def adxRows : List Bar → List AdxRow
  | [] => []
  | b :: bs => ⟨b.High - b.Low, 0, 0⟩ :: adxRowsAux b bs

/-- pandas `ewm(alpha=a, adjust=False).mean()` after the seed:
each smoothed value is `a * x + (1 - a) * previous`. -/
def ewmAux (a : ℚ) (s : ℚ) : List ℚ → List ℚ
  | [] => []
  | x :: xs =>
    let s' := a * x + (1 - a) * s
    s' :: ewmAux a s' xs

/-- pandas `ewm(alpha=a, adjust=False).mean()`: the first element seeds the
recursion unchanged. -/
def ewm (a : ℚ) : List ℚ → List ℚ
  | [] => []
  | x :: xs => x :: ewmAux a x xs

/-- The raw directional index of one row, from the smoothed components:
`|+DI - -DI| / (+DI + -DI) * 100` with `DI = DM_s / TR_s * 100`.  Rational
division by zero yields `0` where the float source would produce NaN or
infinity; no claim depends on that case. -/
def dxOf (pn : ℚ × ℚ) (t : ℚ) : ℚ :=
  |pn.1 / t * 100 - pn.2 / t * 100| / (pn.1 / t * 100 + pn.2 / t * 100) * 100

/-- `calculate_indicators`: `None` for a missing history or one shorter
than 120 bars; otherwise the indicator dict.  The standard-deviation
routine of the float library (`rolling(20).std()` is the square root of
the `ddof = 1` variance) is abstracted as the parameter `sqrtQ`, since an
exact square root does not exist on the rationals. -/
def calculate_indicators (sqrtQ : ℚ → ℚ) (hist : Option (List Bar)) :
    Option Inds :=
  match hist with
  | none => none
  | some df =>
    if df.length < 120 then none
    else
      let closes := df.map Bar.Close
      let sma20 := listMean (lastN 20 closes)
      let sma120 := listMean (lastN 120 closes)
      let std_dev := sqrtQ (sampleVar (lastN 20 closes))
      let rows := adxRows df
      let trS := ewm (1 / 14) (rows.map AdxRow.tr)
      let pdmS := ewm (1 / 14) (rows.map AdxRow.pdm)
      let ndmS := ewm (1 / 14) (rows.map AdxRow.ndm)
      let adxSeries := ewm (1 / 14) (List.zipWith dxOf (pdmS.zip ndmS) trS)
      some
        { SMA20 := sma20
          SMA120 := sma120
          BB_LOW := sma20 - 2 * std_dev
          PREV_SMA20 := listMean (lastN 20 closes.dropLast)
          PREV_CLOSE := ilocLast closes.dropLast
          TODAY_OPEN := ilocLast (df.map Bar.Open)
          ADX := ilocLast adxSeries
          BB_UP := sma20 + 2 * std_dev }

/-- One broker holding row, as parsed by `get_balance`. -/
structure Holding where
  qty : ℤ
  avg_price : ℚ
  profit_rate : ℚ
  eval_amt : ℚ
deriving DecidableEq, Repr

/-- Order side of `send_order`. -/
inductive Side
  | buy
  | sell
deriving DecidableEq, Repr

/-- The broker calls a strategy path makes for one symbol, in order:
`cancel_all_orders`, `send_order`, and `set_ignore_sync` (the latter also
mutates the status manager; it is kept in the trace to record when it
happens relative to the orders). -/
inductive Event
  | cancelAll (sym exch : String)
  | order (sym exch : String) (qty : ℤ) (price : ℚ) (side : Side)
  | ignoreSync (sym : String) (duration : ℚ)
deriving DecidableEq, Repr

/-- A queued buy intent of phase C, an element of `buy_list`:
target symbol and exchange, needed dollar amount, reference price and the
real quantity snapshot taken at evaluation. -/
structure BuyIntent where
  symbol : String
  exch : String
  amount : ℚ
  price : ℚ
  qty : ℤ
deriving DecidableEq, Repr

/-- Phase A body for one held symbol (the opening-window gap-up
profit-take): cancel outstanding orders, then, when the short history and
its indicators are available, submit a sell of half the held quantity
(`int(qty * 0.5)`, truncation) at the upper Bollinger band. -/
def phaseASymbol (sym exch : String) (holding : Option Holding)
    (inds : Option Inds) : List Event :=
  match holding with
  | none => []
  | some info =>
    Event.cancelAll sym exch ::
      (match inds with
       | none => []
       | some ind =>
         let sell_qty := Int.tdiv info.qty 2
         if 0 < sell_qty then
           [Event.order sym exch sell_qty (pyRound2 ind.BB_UP) Side.sell]
         else [])

/-- Phase B body for one symbol (stop loss and trailing stop).  Skips the
symbol while it is in an ignore-sync window, not held, or without a
current price.  Otherwise computes the unrealized rate, raises the
high-water mark, and fires at most one exit: the stop loss at
`rate <= -5.0`, else the trailing stop at `max_rate >= 10.0` and
`max_rate - rate >= 3.0`; each exit cancels, sells the full quantity at
`round(curr * 0.95, 2)`, and on send success sets a one-hour ignore-sync
window.  `saveOk` and `sendOk` are the durable-write and order-send
outcomes.  Returns the emitted events and the updated manager. -/
def phaseBSymbol (st : StatusMgr) (sym exch : String)
    (holding : Option Holding) (curr : Option ℚ) (now : ℚ)
    (saveOk sendOk : Bool) : List Event × StatusMgr :=
  if is_sync_ignored st sym now then ([], st)
  else
    match holding with
    | none => ([], st)
    | some info =>
      match curr with
      | none => ([], st)
      | some c =>
        let rate := (c - info.avg_price) / info.avg_price * 100
        let st1 := update_max_profit st sym rate saveOk
        let max_rate := get_max_profit st1 sym
        let market_sell := pyRound2 (c * (95 / 100))
        if rate ≤ -5 then
          (Event.cancelAll sym exch ::
             Event.order sym exch info.qty market_sell Side.sell ::
             (if sendOk then [Event.ignoreSync sym 3600] else []),
           if sendOk then set_ignore_sync st1 sym 3600 now saveOk else st1)
        else if 10 ≤ max_rate ∧ 3 ≤ max_rate - rate then
          (Event.cancelAll sym exch ::
             Event.order sym exch info.qty market_sell Side.sell ::
             (if sendOk then [Event.ignoreSync sym 3600] else []),
           if sendOk then set_ignore_sync st1 sym 3600 now saveOk else st1)
        else ([], st1)

/-- Phase C body for one target symbol (closing-decision window).  Skips
symbols in an ignore-sync window, symbols with open orders, and symbols
with a missing price, history or indicator set.  A held symbol whose price
is below SMA20 gets the trend-break exit: a full-quantity sell at
`round(curr * 0.95, 2)` with an ignore-sync window on success, and no
entry evaluation.  Otherwise the entry rule runs: long-term filter
(price above SMA120), cross-up or band-reclaim trigger, ADX strength
filter, and the intent amount `total_equity * 0.5 - virtual_qty * curr`
is queued when above the 10-dollar floor.  `low` and `opn` are
`hist['Low'].iloc[-1]` and `hist['Open'].iloc[-1]`.  Returns the events,
the queued intent if any, and the updated manager. -/
def phaseCSymbol (st : StatusMgr) (sym exch : String)
    (openOrders : List String) (curr : Option ℚ)
    (histData : Option (ℚ × ℚ)) (inds : Option Inds) (real_qty : ℤ)
    (total_equity : ℚ) (now : ℚ) (saveOk sendOk : Bool) :
    List Event × Option BuyIntent × StatusMgr :=
  if is_sync_ignored st sym now then ([], none, st)
  else if openOrders = [] then
    match curr with
    | none => ([], none, st)
    | some c =>
      match histData with
      | none => ([], none, st)
      | some (low, opn) =>
        match inds with
        | none => ([], none, st)
        | some ind =>
          if 0 < real_qty ∧ c < ind.SMA20 then
            let market_sell := pyRound2 (c * (95 / 100))
            (Event.order sym exch real_qty market_sell Side.sell ::
               (if sendOk then [Event.ignoreSync sym 3600] else []),
             none,
             if sendOk then set_ignore_sync st sym 3600 now saveOk else st)
          else
            if (ind.SMA120 < c) ∧
                ((ind.PREV_CLOSE < ind.PREV_SMA20 ∧ ind.SMA20 < c) ∨
                 (low < ind.BB_LOW ∧ ind.BB_LOW < c ∧ opn < c)) then
              if 25 ≤ ind.ADX then
                let vq := get_virtual_qty st sym real_qty now
                let needed := total_equity * (1 / 2) - vq.1 * c
                if 10 < needed then
                  ([], some ⟨sym, exch, needed, c, real_qty⟩, vq.2)
                else ([], none, vq.2)
              else ([], none, st)
            else ([], none, st)
  else ([], none, st)

/-- Scan of a trace checking that every sell order is preceded by a
cancel-all for the same symbol; `canceled` accumulates the symbols
canceled so far. -/
def cancelBeforeSellFrom (canceled : List String) : List Event → Bool
  | [] => true
  | Event.cancelAll s _ :: es => cancelBeforeSellFrom (s :: canceled) es
  | Event.order s _ _ _ Side.sell :: es =>
    canceled.contains s && cancelBeforeSellFrom canceled es
  | Event.order _ _ _ _ Side.buy :: es => cancelBeforeSellFrom canceled es
  | Event.ignoreSync _ _ :: es => cancelBeforeSellFrom canceled es

/-- The ordering guarantee of the spec for one trace: every sell order is
preceded by an attempted cancellation for its symbol. -/
def cancelBeforeSell (es : List Event) : Bool :=
  cancelBeforeSellFrom [] es

/-- One order submission of a TWAP slice: symbol, share quantity, limit
price, and whether the send succeeded so that a virtual pending buy was
recorded. -/
structure TwapSub where
  sym : String
  qty : ℤ
  limit : ℚ
  recorded : Bool
deriving DecidableEq, Repr

/-- One executed TWAP slice: its index `i` of the `range(3)` loop, the
`is_last` cutoff flag read from the clock at the start of the slice, the
submissions made, and the inter-slice pause — `some 150` exactly when the
code reaches `time.sleep(150)` after the slice. -/
structure TwapSlice where
  idx : Nat
  last : Bool
  subs : List TwapSub
  sleepAfter : Option ℚ
deriving DecidableEq, Repr

/-- The submissions of slice `i`: each intent converts its chunk — a third
of the amount, times `3 - i` when the slice is at or past the cutoff — to
`int(chunk / curr)` shares at the price freshly fetched for the slice
(falling back to the reference price), and submits a limit buy at
`round(curr * 1.05, 2)` when the share count is positive. -/
def twapSubs (buyList : List BuyIntent) (i : Nat) (last : Bool)
    (priceAt : String → Option ℚ) (sendOk : String → Bool) : List TwapSub :=
  buyList.filterMap fun o =>
    let c := (priceAt o.symbol).getD o.price
    let chunk := o.amount / 3 * (if last then ((3 - i : ℕ) : ℚ) else 1)
    let q := truncQ (chunk / c)
    if 0 < q then some ⟨o.symbol, q, pyRound2 (c * (105 / 100)), sendOk o.symbol⟩
    else none

/-- The `for i in range(3)` TWAP loop from iteration `i` on, with `fuel`
the number of remaining iterations: execute the slice, stop after it when
its cutoff flag was set, otherwise pause 150 seconds (except after the
final iteration) and continue. -/
def twapGo (buyList : List BuyIntent) (lastAt : Nat → Bool)
    (priceAt : Nat → String → Option ℚ) (sendOk : Nat → String → Bool) :
    Nat → Nat → List TwapSlice
  | 0, _ => []
  | fuel + 1, i =>
    let last := lastAt i
    let slice : TwapSlice :=
      ⟨i, last, twapSubs buyList i last (priceAt i) (sendOk i),
        if ¬last ∧ i < 2 then some 150 else none⟩
    if last then [slice]
    else slice :: twapGo buyList lastAt priceAt sendOk fuel (i + 1)

/-- Phase D, the TWAP run over the queued buy intents: three iterations
starting at index 0.  `lastAt i` tells whether the New-York clock has
reached `"15:59:00"` when slice `i` starts; `priceAt i` is the price
fetch of slice `i`; `sendOk i` the order-send outcome. -/
def twapRun (buyList : List BuyIntent) (lastAt : Nat → Bool)
    (priceAt : Nat → String → Option ℚ) (sendOk : Nat → String → Bool) :
    List TwapSlice :=
  twapGo buyList lastAt priceAt sendOk 3 0

theorem dictGet_dictSet_self {β : Type} (m : List (String × β)) (k : String)
    (v : β) : dictGet (dictSet m k v) k = some v := by
  induction m with
  | nil => simp [dictGet, dictSet]
  | cons p rest ih =>
    obtain ⟨k', v'⟩ := p
    by_cases h : k' = k
    · simp [dictGet, dictSet, h]
    · simp [dictGet, dictSet, h, ih]

theorem dictGet_dictSet_ne {β : Type} (m : List (String × β)) (k k' : String)
    (v : β) (h : k' ≠ k) : dictGet (dictSet m k v) k' = dictGet m k' := by
  induction m with
  | nil => simp [dictGet, dictSet, Ne.symm h]
  | cons p rest ih =>
    obtain ⟨k₁, v₁⟩ := p
    by_cases h1 : k₁ = k
    · subst h1
      simp [dictGet, dictSet, Ne.symm h]
    · simp only [dictSet, if_neg h1]
      by_cases h2 : k₁ = k'
      · simp [dictGet, h2]
      · simp [dictGet, h2, ih]

theorem keys_dictSet_mem {β : Type} (m : List (String × β)) (k a : String)
    (v : β) (ha : a ∈ (dictSet m k v).map Prod.fst) :
    a ∈ m.map Prod.fst ∨ a = k := by
  induction m with
  | nil =>
    simp [dictSet] at ha
    exact Or.inr ha
  | cons p rest ih =>
    obtain ⟨k₁, v₁⟩ := p
    by_cases h1 : k₁ = k
    · simp [dictSet, h1] at ha
      rcases ha with ha | ha
      · exact Or.inr ha
      · exact Or.inl (by simp [ha])
    · simp only [dictSet, if_neg h1, List.map_cons, List.mem_cons] at ha
      rcases ha with ha | ha
      · exact Or.inl (by simp [ha])
      · rcases ih ha with h2 | h2
        · exact Or.inl (by simp [h2])
        · exact Or.inr h2

theorem nodup_keys_dictSet {β : Type} (m : List (String × β)) (k : String)
    (v : β) (h : (m.map Prod.fst).Nodup) :
    ((dictSet m k v).map Prod.fst).Nodup := by
  induction m with
  | nil => simp [dictSet]
  | cons p rest ih =>
    obtain ⟨k₁, v₁⟩ := p
    simp only [List.map_cons, List.nodup_cons] at h
    by_cases h1 : k₁ = k
    · subst h1
      simpa [dictSet] using h
    · simp only [dictSet, if_neg h1, List.map_cons, List.nodup_cons]
      refine ⟨fun hmem => ?_, ih h.2⟩
      rcases keys_dictSet_mem rest k k₁ v hmem with h2 | h2
      · exact h.1 h2
      · exact h1 h2

/-- Trajectory of `get_max_profit` values observed after each
`update_max_profit` call of a rate sequence (with successful saves). -/
def maxProfitTrace (sym : String) : StatusMgr → List ℚ → List ℚ
  | _, [] => []
  | st, r :: rs =>
    let st' := update_max_profit st sym r true
    get_max_profit st' sym :: maxProfitTrace sym st' rs

/-- C1 counterexample: the claim says a mutation whose durable write fails
leaves the in-memory state unchanged, but `update_max_profit` mutates
`self.data` first and `_save` swallows the failure, so with a failing
write the in-memory max-profit map changes while the durable store does
not. -/
theorem C1_failed_save_still_mutates_memory :
    (update_max_profit initStatus "TQQQ" 5 false).data ≠ initStatus.data ∧
    (update_max_profit initStatus "TQQQ" 5 false).store = initStatus.store := by
  decide

/-- C1 (amended): every Position and Risk Tracker mutation updates the
in-memory state in the same way whether or not the durable write
succeeds; a successful write makes the durable store equal to the new
in-memory data (unless the mutation was a guarded no-op), and a failed
write leaves the durable store unchanged while keeping the in-memory
update in place. -/
theorem C1_mutations_memory_first_best_effort_store (st : StatusMgr)
    (sym : String) (rate dur now : ℚ) (d : Bool) :
    ((update_max_profit st sym rate false).store = st.store ∧
      (update_max_profit st sym rate false).data =
        (update_max_profit st sym rate true).data ∧
      (update_max_profit st sym rate true = st ∨
        (update_max_profit st sym rate true).store =
          (update_max_profit st sym rate true).data)) ∧
    ((reset_max_profit st sym false).store = st.store ∧
      (reset_max_profit st sym false).data = (reset_max_profit st sym true).data ∧
      (reset_max_profit st sym true = st ∨
        (reset_max_profit st sym true).store = (reset_max_profit st sym true).data)) ∧
    ((set_phase_a_done st d false).store = st.store ∧
      (set_phase_a_done st d false).data = (set_phase_a_done st d true).data ∧
      (set_phase_a_done st d true).store = (set_phase_a_done st d true).data) ∧
    ((set_ignore_sync st sym dur now false).store = st.store ∧
      (set_ignore_sync st sym dur now false).data =
        (set_ignore_sync st sym dur now true).data ∧
      (set_ignore_sync st sym dur now true).store =
        (set_ignore_sync st sym dur now true).data) ∧
    ((reset_daily st false).store = st.store ∧
      (reset_daily st false).data = (reset_daily st true).data ∧
      (reset_daily st true).store = (reset_daily st true).data) := by
  refine ⟨?_, ?_, ?_, ?_, ?_⟩
  · by_cases h : dictGetD st.data.max_profit sym (-999) < rate
    · simp [update_max_profit, h, saveStatus]
    · simp [update_max_profit, h]
  · by_cases h : (dictGet st.data.max_profit sym).isSome
    · simp [reset_max_profit, h, saveStatus]
    · simp [reset_max_profit, h]
  · simp [set_phase_a_done, saveStatus]
  · simp [set_ignore_sync, saveStatus]
  · simp [reset_daily, saveStatus]

/-- C2 counterexample: the claim says the stored max-profit changes only
when the rate exceeds the value `maxProfit` reports (0.0 for an unset
symbol); on an unset symbol a rate of -3 is below that 0.0, yet the code
stores it (its update guard defaults to -999.0), and `maxProfit`
consequently decreases from 0 to -3 across the call. -/
theorem C2_unset_default_is_minus_999_not_zero :
    ¬ (((update_max_profit initStatus "TQQQ" (-3) true).data.max_profit ≠
          initStatus.data.max_profit) ↔
        get_max_profit initStatus "TQQQ" < -3) ∧
    get_max_profit (update_max_profit initStatus "TQQQ" (-3) true) "TQQQ" <
      get_max_profit initStatus "TQQQ" := by
  decide

/-- C2 (amended): `update_max_profit` changes the stored max-profit map
exactly when the rate exceeds the currently stored value, where the value
of an unset symbol defaults to -999.0 (not the 0.0 that `get_max_profit`
reports); once a symbol has a stored value, an update leaves it at the
maximum of the old value and the rate, so the stored value never
decreases across updates; the rate sequence [2, 5, 11, 9, 7] yields the
max-profit trajectory [2, 5, 11, 11, 11]. -/
theorem C2_update_guard_and_monotonicity (st : StatusMgr) (sym : String)
    (rate : ℚ) :
    (((update_max_profit st sym rate true).data.max_profit ≠
        st.data.max_profit) ↔
      dictGetD st.data.max_profit sym (-999) < rate) ∧
    (∀ v : ℚ, dictGet st.data.max_profit sym = some v →
      dictGet (update_max_profit st sym rate true).data.max_profit sym =
        some (max v rate)) ∧
    maxProfitTrace "TQQQ" initStatus [2, 5, 11, 9, 7] = [2, 5, 11, 11, 11] := by
  refine ⟨?_, ?_, by decide⟩
  · by_cases h : dictGetD st.data.max_profit sym (-999) < rate
    · have hmap : (update_max_profit st sym rate true).data.max_profit =
          dictSet st.data.max_profit sym rate := by
        simp [update_max_profit, h, saveStatus]
      rw [hmap]
      refine ⟨fun _ => h, fun _ heq => ?_⟩
      have h1 := congrArg (fun mm => dictGet mm sym) heq
      simp only [dictGet_dictSet_self] at h1
      rw [dictGetD, ← h1] at h
      simp at h
    · simp only [update_max_profit, if_neg h]
      simp [h]
  · intro v hv
    have hD : dictGetD st.data.max_profit sym (-999) = v := by
      simp [dictGetD, hv]
    by_cases h : v < rate
    · simp only [update_max_profit, hD, if_pos h, saveStatus, if_pos rfl]
      simp [dictGet_dictSet_self, max_eq_right (le_of_lt h)]
    · simp only [update_max_profit, hD, if_neg h]
      simp [hv, max_eq_left (le_of_not_lt h)]

/-- C2 witness: after storing 2 for TQQQ, an update with rate 5 leaves the
stored value at `max 2 5`. -/
theorem C2_update_guard_and_monotonicity_witness :
    dictGet (update_max_profit (update_max_profit initStatus "TQQQ" 2 true)
        "TQQQ" 5 true).data.max_profit "TQQQ" = some (max 2 5) :=
  (C2_update_guard_and_monotonicity
    (update_max_profit initStatus "TQQQ" 2 true) "TQQQ" 5).2.1 2 (by decide)

/-- C4: `get_virtual_qty` returns the real quantity when no pending entry
exists; with a pending entry it drops the entry and returns the real
quantity when the real quantity has risen above the stored snapshot, or
(checked next) when more than 600 seconds have elapsed since submission,
and otherwise returns the real quantity inflated by the pending quantity
with the entry kept. -/
theorem C4_virtual_qty_cases (st : StatusMgr) (sym : String)
    (cur : ℤ) (now : ℚ) :
    (dictGet st.pending_buys sym = none →
      get_virtual_qty st sym cur now = (cur, st)) ∧
    (∀ info : PendingInfo, dictGet st.pending_buys sym = some info →
      ((info.initial_qty < cur →
          get_virtual_qty st sym cur now =
            (cur, { st with pending_buys := dictDel st.pending_buys sym })) ∧
       (¬ info.initial_qty < cur → 600 < now - info.time →
          get_virtual_qty st sym cur now =
            (cur, { st with pending_buys := dictDel st.pending_buys sym })) ∧
       (¬ info.initial_qty < cur → ¬ 600 < now - info.time →
          get_virtual_qty st sym cur now = (cur + info.qty, st)))) := by
  constructor
  · intro h
    simp [get_virtual_qty, h]
  · intro info h
    refine ⟨fun h1 => ?_, fun h1 h2 => ?_, fun h1 h2 => ?_⟩
    · simp [get_virtual_qty, h, h1]
    · simp [get_virtual_qty, h, h1, h2]
    · simp [get_virtual_qty, h, h1, h2]

/-- C4 witness: a pending entry of quantity 10 recorded at time 0 with
snapshot 5 inflates a real quantity of 5 to 15 at time 100 (not risen, not
expired). -/
theorem C4_virtual_qty_cases_witness :
    get_virtual_qty (record_pending_buy initStatus "TQQQ" 10 0 5)
      "TQQQ" 5 100 = (5 + 10, record_pending_buy initStatus "TQQQ" 10 0 5) :=
  ((C4_virtual_qty_cases (record_pending_buy initStatus "TQQQ" 10 0 5)
      "TQQQ" 5 100).2 ⟨10, 0, 5⟩ (by decide)).2.2 (by decide) (by norm_num)

/-- C10: `record_pending_buy` unconditionally overwrites the entry of the
symbol: after a call the ledger maps the symbol to exactly the new
(quantity, time, snapshot) triple, two successive records for the same
symbol keep only the second (quantities are replaced, never accumulated),
other symbols are untouched, and key uniqueness of the ledger is
preserved, so at most one pending entry per symbol exists. -/
theorem C10_record_pending_buy_overwrites (st : StatusMgr) (sym sym' : String)
    (q q2 cur cur2 : ℤ) (now now2 : ℚ) :
    dictGet (record_pending_buy st sym q now cur).pending_buys sym =
      some ⟨q, now, cur⟩ ∧
    dictGet (record_pending_buy (record_pending_buy st sym q now cur)
        sym q2 now2 cur2).pending_buys sym = some ⟨q2, now2, cur2⟩ ∧
    (sym' ≠ sym →
      dictGet (record_pending_buy st sym q now cur).pending_buys sym' =
        dictGet st.pending_buys sym') ∧
    ((st.pending_buys.map Prod.fst).Nodup →
      ((record_pending_buy st sym q now cur).pending_buys.map Prod.fst).Nodup) := by
  refine ⟨?_, ?_, fun h => ?_, fun h => ?_⟩
  · simp [record_pending_buy, dictGet_dictSet_self]
  · simp [record_pending_buy, dictGet_dictSet_self]
  · simp [record_pending_buy, dictGet_dictSet_ne _ _ _ _ h]
  · exact nodup_keys_dictSet _ _ _ h

/-- C10 witness: recording over the empty ledger keeps its keys unique. -/
theorem C10_record_pending_buy_overwrites_witness :
    ((record_pending_buy initStatus "TQQQ" 10 0 5).pending_buys.map
      Prod.fst).Nodup :=
  (C10_record_pending_buy_overwrites initStatus "TQQQ" "SOXL" 10 0 5 0 0
    0).2.2.2 (by simp [initStatus])

theorem classifyTick_weekday_open (wd t : Nat) (h1 : wd < 5)
    (h2 : hm 9 30 ≤ t) (h3 : t < hm 16 0) :
    classifyTick wd t =
      ⟨false, false, false, decide (hm 9 30 ≤ t ∧ t < hm 9 40),
        decide (hm 9 30 ≤ t ∧ t < hm 15 50),
        decide (hm 15 50 ≤ t ∧ t < hm 16 0)⟩ := by
  unfold classifyTick
  rw [if_neg (by omega), if_neg (by omega), if_neg (by omega)]

/-- C8: the scheduler sends every Saturday or Sunday timestamp to the
weekend branch regardless of clock time; on weekdays 09:29 is pre-market,
the interval [09:30, 09:40) opens the phase-A window, [09:30, 15:50) the
phase-B regular-monitoring window (so the two overlap), [15:50, 16:00)
the phase-C closing-decision window (15:59 included), and from 16:00 on
only the post-close branch runs with the market reported closed. -/
theorem C8_session_window_classification (wd t : Nat) :
    (5 ≤ wd →
      classifyTick wd t = ⟨true, false, false, false, false, false⟩ ∧
        get_market_status wd t = false) ∧
    (wd < 5 → t < hm 9 30 →
      classifyTick wd t = ⟨false, true, false, false, false, false⟩ ∧
        get_market_status wd t = false) ∧
    (wd < 5 → hm 9 30 ≤ t → t < hm 9 40 → (classifyTick wd t).opening = true) ∧
    (wd < 5 → hm 9 30 ≤ t → t < hm 15 50 → (classifyTick wd t).regular = true) ∧
    (wd < 5 → hm 15 50 ≤ t → t < hm 16 0 → (classifyTick wd t).closing = true) ∧
    (wd < 5 → hm 16 0 ≤ t →
      classifyTick wd t = ⟨false, false, true, false, false, false⟩ ∧
        get_market_status wd t = false) ∧
    classifyTick 2 (hm 9 29) = ⟨false, true, false, false, false, false⟩ ∧
    (classifyTick 2 (hm 9 30)).opening = true ∧
    (classifyTick 2 (hm 9 30)).regular = true ∧
    get_market_status 2 (hm 9 30) = true ∧
    (classifyTick 2 (hm 15 59)).closing = true ∧
    classifyTick 2 (hm 16 0) = ⟨false, false, true, false, false, false⟩ ∧
    get_market_status 2 (hm 16 0) = false := by
  refine ⟨fun h => ?_, fun h1 h2 => ?_, fun h1 h2 h3 => ?_, fun h1 h2 h3 => ?_,
    fun h1 h2 h3 => ?_, fun h1 h2 => ?_,
    by decide, by decide, by decide, by decide, by decide, by decide, by decide⟩
  · constructor
    · simp [classifyTick, h]
    · simp [get_market_status, h]
  · constructor
    · unfold classifyTick
      rw [if_neg (by omega), if_pos h2]
    · unfold get_market_status
      rw [if_neg (by omega)]
      simp only [hm] at h2 ⊢
      simp
      omega
  · rw [classifyTick_weekday_open wd t h1 h2 (by simp only [hm] at *; omega)]
    simp only [hm] at h2 h3 ⊢
    simp
    omega
  · rw [classifyTick_weekday_open wd t h1 h2 (by simp only [hm] at *; omega)]
    simp only [hm] at h2 h3 ⊢
    simp
    omega
  · rw [classifyTick_weekday_open wd t h1 (by simp only [hm] at *; omega) h3]
    simp only [hm] at h2 h3 ⊢
    simp
    omega
  · constructor
    · unfold classifyTick
      rw [if_neg (by omega), if_neg (by simp only [hm] at *; omega), if_pos h2]
    · unfold get_market_status
      rw [if_neg (by omega)]
      simp only [hm] at h2 ⊢
      simp
      omega

/-- C8 witness: a Sunday noon timestamp is weekend and closed. -/
theorem C8_session_window_classification_witness :
    classifyTick 6 (hm 12 0) = ⟨true, false, false, false, false, false⟩ ∧
      get_market_status 6 (hm 12 0) = false :=
  (C8_session_window_classification 6 (hm 12 0)).1 (by decide)

/-- C9: `calculate_indicators` signals insufficiency (`None`) for a
missing history and for any history shorter than 120 daily bars, and
otherwise returns an indicator set whose SMA20 and SMA120 are the simple
moving averages of close over the trailing 20 and 120 sessions and whose
Bollinger bands are SMA20 plus and minus twice the 20-session standard
deviation of close (the pandas `rolling(20).std()`, the square root — the
float routine abstracted as `sqrtQ` — of the `ddof = 1` variance of the
trailing 20 closes). -/
theorem C9_indicator_sufficiency_and_formulas (sqrtQ : ℚ → ℚ)
    (hist : List Bar) :
    calculate_indicators sqrtQ none = none ∧
    (hist.length < 120 → calculate_indicators sqrtQ (some hist) = none) ∧
    (120 ≤ hist.length →
      ∃ r : Inds, calculate_indicators sqrtQ (some hist) = some r ∧
        (lastN 20 (hist.map Bar.Close)).length = 20 ∧
        r.SMA20 = (lastN 20 (hist.map Bar.Close)).sum / 20 ∧
        (lastN 120 (hist.map Bar.Close)).length = 120 ∧
        r.SMA120 = (lastN 120 (hist.map Bar.Close)).sum / 120 ∧
        r.BB_UP = r.SMA20 + 2 * sqrtQ
          (((lastN 20 (hist.map Bar.Close)).map
            (fun x => (x - (lastN 20 (hist.map Bar.Close)).sum / 20) ^ 2)).sum / 19) ∧
        r.BB_LOW = r.SMA20 - 2 * sqrtQ
          (((lastN 20 (hist.map Bar.Close)).map
            (fun x => (x - (lastN 20 (hist.map Bar.Close)).sum / 20) ^ 2)).sum / 19)) := by
  refine ⟨rfl, fun h => by simp [calculate_indicators, h], fun h => ?_⟩
  have hlen : (hist.map Bar.Close).length = hist.length := by simp
  have h20 : (lastN 20 (hist.map Bar.Close)).length = 20 := by
    simp only [lastN, List.length_drop, hlen]
    omega
  have h120 : (lastN 120 (hist.map Bar.Close)).length = 120 := by
    simp only [lastN, List.length_drop, hlen]
    omega
  have hmean20 : listMean (lastN 20 (hist.map Bar.Close)) =
      (lastN 20 (hist.map Bar.Close)).sum / 20 := by
    rw [listMean, h20]
    norm_num
  have hmean120 : listMean (lastN 120 (hist.map Bar.Close)) =
      (lastN 120 (hist.map Bar.Close)).sum / 120 := by
    rw [listMean, h120]
    norm_num
  have hvar : sampleVar (lastN 20 (hist.map Bar.Close)) =
      ((lastN 20 (hist.map Bar.Close)).map
        (fun x => (x - (lastN 20 (hist.map Bar.Close)).sum / 20) ^ 2)).sum / 19 := by
    rw [sampleVar, hmean20, h20]
    norm_num
  simp only [calculate_indicators, if_neg (Nat.not_lt.mpr h)]
  exact ⟨_, rfl, h20, hmean20, h120, hmean120, by simp [hvar], by simp [hvar]⟩

/-- C9 witness: a constant 120-bar history is long enough, so the
indicator set exists with the stated moving-average and band formulas. -/
theorem C9_indicator_sufficiency_and_formulas_witness :
    ∃ r : Inds,
      calculate_indicators (fun _ => 0)
          (some (List.replicate 120 ⟨10, 10, 10, 10⟩)) = some r ∧
        (lastN 20 ((List.replicate 120 (⟨10, 10, 10, 10⟩ : Bar)).map
          Bar.Close)).length = 20 ∧
        r.SMA20 = (lastN 20 ((List.replicate 120 (⟨10, 10, 10, 10⟩ : Bar)).map
          Bar.Close)).sum / 20 ∧
        (lastN 120 ((List.replicate 120 (⟨10, 10, 10, 10⟩ : Bar)).map
          Bar.Close)).length = 120 ∧
        r.SMA120 = (lastN 120 ((List.replicate 120 (⟨10, 10, 10, 10⟩ : Bar)).map
          Bar.Close)).sum / 120 ∧
        r.BB_UP = r.SMA20 + 2 * (fun _ => (0 : ℚ))
          (((lastN 20 ((List.replicate 120 (⟨10, 10, 10, 10⟩ : Bar)).map
              Bar.Close)).map
            (fun x => (x - (lastN 20 ((List.replicate 120 (⟨10, 10, 10, 10⟩ : Bar)).map
              Bar.Close)).sum / 20) ^ 2)).sum / 19) ∧
        r.BB_LOW = r.SMA20 - 2 * (fun _ => (0 : ℚ))
          (((lastN 20 ((List.replicate 120 (⟨10, 10, 10, 10⟩ : Bar)).map
              Bar.Close)).map
            (fun x => (x - (lastN 20 ((List.replicate 120 (⟨10, 10, 10, 10⟩ : Bar)).map
              Bar.Close)).sum / 20) ^ 2)).sum / 19) :=
  (C9_indicator_sufficiency_and_formulas (fun _ => 0)
    (List.replicate 120 ⟨10, 10, 10, 10⟩)).2.2 (by simp)

/-- C3: in the regular-monitoring window, a held symbol outside its
ignore-sync window with an available price fires the stop loss exactly
when the unrealized rate is at most -5.0 (so -5.0 fires and -4.99 does
not), emitting cancel, then a full-quantity sell at `round(curr*0.95, 2)`,
then the one-hour ignore-sync call; otherwise the trailing stop fires
exactly when the updated high-water mark is at least 10.0 and exceeds the
rate by at least 3.0, with the same cancel-sell-ignore sequence; otherwise
nothing is emitted — so at most one exit fires per symbol per tick, with
the stop loss checked first, and after a fire the symbol is
ignore-synced for the next hour. -/
theorem C3_phaseB_stop_loss_then_trailing (st : StatusMgr) (sym exch : String)
    (info : Holding) (c now : ℚ) (saveOk : Bool)
    (hIgn : is_sync_ignored st sym now = false) :
    ((c - info.avg_price) / info.avg_price * 100 ≤ -5 →
      phaseBSymbol st sym exch (some info) (some c) now saveOk true =
        ([Event.cancelAll sym exch,
          Event.order sym exch info.qty (pyRound2 (c * (95 / 100))) Side.sell,
          Event.ignoreSync sym 3600],
         set_ignore_sync
           (update_max_profit st sym
             ((c - info.avg_price) / info.avg_price * 100) saveOk)
           sym 3600 now saveOk)) ∧
    (¬ (c - info.avg_price) / info.avg_price * 100 ≤ -5 →
      (10 ≤ get_max_profit
          (update_max_profit st sym
            ((c - info.avg_price) / info.avg_price * 100) saveOk) sym ∧
        3 ≤ get_max_profit
            (update_max_profit st sym
              ((c - info.avg_price) / info.avg_price * 100) saveOk) sym -
          (c - info.avg_price) / info.avg_price * 100) →
      phaseBSymbol st sym exch (some info) (some c) now saveOk true =
        ([Event.cancelAll sym exch,
          Event.order sym exch info.qty (pyRound2 (c * (95 / 100))) Side.sell,
          Event.ignoreSync sym 3600],
         set_ignore_sync
           (update_max_profit st sym
             ((c - info.avg_price) / info.avg_price * 100) saveOk)
           sym 3600 now saveOk)) ∧
    (¬ (c - info.avg_price) / info.avg_price * 100 ≤ -5 →
      ¬ (10 ≤ get_max_profit
            (update_max_profit st sym
              ((c - info.avg_price) / info.avg_price * 100) saveOk) sym ∧
          3 ≤ get_max_profit
              (update_max_profit st sym
                ((c - info.avg_price) / info.avg_price * 100) saveOk) sym -
            (c - info.avg_price) / info.avg_price * 100) →
      phaseBSymbol st sym exch (some info) (some c) now saveOk true =
        ([], update_max_profit st sym
          ((c - info.avg_price) / info.avg_price * 100) saveOk)) ∧
    (∀ st' : StatusMgr,
      is_sync_ignored (set_ignore_sync st' sym 3600 now saveOk) sym
        (now + 1800) = true) ∧
    (phaseBSymbol initStatus "TQQQ" "NASD" (some ⟨10, 100, 0, 0⟩) (some 95) 0
        true true).1 =
      [Event.cancelAll "TQQQ" "NASD",
       Event.order "TQQQ" "NASD" 10 (pyRound2 (95 * (95 / 100))) Side.sell,
       Event.ignoreSync "TQQQ" 3600] ∧
    (phaseBSymbol initStatus "TQQQ" "NASD" (some ⟨10, 100, 0, 0⟩)
        (some (9501 / 100)) 0 true true).1 = [] := by
  refine ⟨fun h1 => ?_, fun h1 h2 => ?_, fun h1 h2 => ?_, fun st' => ?_, ?_, ?_⟩
  · simp [phaseBSymbol, hIgn, h1]
  · simp [phaseBSymbol, hIgn, h1, h2]
  · simp [phaseBSymbol, hIgn, h1, h2]
  · simp only [is_sync_ignored, set_ignore_sync, saveStatus]
    by_cases hs : saveOk <;>
      simp [hs, dictGetD, dictGet_dictSet_self, decide_eq_true_eq] <;> linarith
  · norm_num [phaseBSymbol, is_sync_ignored, dictGetD, dictGet, initStatus]
  · norm_num [phaseBSymbol, is_sync_ignored, dictGetD, dictGet, dictSet,
      initStatus, update_max_profit, get_max_profit, saveStatus]

/-- C3 witness: at average price 100 and current price 90 the rate is -10,
so the stop loss fires with the cancel, sell, ignore-sync trace. -/
theorem C3_phaseB_stop_loss_then_trailing_witness :
    phaseBSymbol initStatus "SOXL" "AMEX" (some ⟨7, 100, 0, 0⟩) (some 90) 0
        true true =
      ([Event.cancelAll "SOXL" "AMEX",
        Event.order "SOXL" "AMEX" 7 (pyRound2 (90 * (95 / 100))) Side.sell,
        Event.ignoreSync "SOXL" 3600],
       set_ignore_sync
         (update_max_profit initStatus "SOXL" ((90 - 100) / 100 * 100) true)
         "SOXL" 3600 0 true) :=
  (C3_phaseB_stop_loss_then_trailing initStatus "SOXL" "AMEX" ⟨7, 100, 0, 0⟩
    90 0 true (by decide)).1 (by norm_num)

/-- C5 counterexample: the trend-break exit of phase C submits its sell
with no prior cancellation attempt for the symbol, so the claim that every
exit path attempts cancellation before the sell fails on this concrete
trend-break execution (held quantity 10, price 90 below an SMA20 of 95). -/
theorem C5_trend_break_sells_without_cancel :
    cancelBeforeSell
      (phaseCSymbol initStatus "TQQQ" "NASD" [] (some 90) (some (85, 92))
        (some ⟨95, 80, 88, 96, 94, 92, 30, 100⟩) 10 1000 0 true true).1 =
      false ∧
    (phaseCSymbol initStatus "TQQQ" "NASD" [] (some 90) (some (85, 92))
        (some ⟨95, 80, 88, 96, 94, 92, 30, 100⟩) 10 1000 0 true true).1 ≠
      [] := by
  norm_num [phaseCSymbol, is_sync_ignored, dictGetD, dictGet, initStatus,
    cancelBeforeSell, cancelBeforeSellFrom]
  exact List.cons_ne_nil _ _

/-- C5 (amended): in the opening-window take-profit (phase A) and in the
stop-loss and trailing-stop exits (phase B), cancellation for the symbol
is attempted before the sell for that symbol is submitted; the trend-break
exit of phase C attempts no cancellation, and is instead reachable only
for symbols with no open orders, because phase C skips any symbol with an
open order outright. -/
theorem C5_cancel_attempted_before_sell_amended (st : StatusMgr)
    (sym exch : String) (holding : Option Holding) (inds : Option Inds)
    (curr : Option ℚ) (histData : Option (ℚ × ℚ)) (openOrders : List String)
    (real_qty : ℤ) (total_equity now : ℚ) (saveOk sendOk : Bool) :
    cancelBeforeSell (phaseASymbol sym exch holding inds) = true ∧
    cancelBeforeSell
      (phaseBSymbol st sym exch holding curr now saveOk sendOk).1 = true ∧
    (openOrders ≠ [] →
      phaseCSymbol st sym exch openOrders curr histData inds real_qty
        total_equity now saveOk sendOk = ([], none, st)) := by
  refine ⟨?_, ?_, fun h => ?_⟩
  · rcases holding with _ | info
    · rfl
    · rcases inds with _ | ind
      · rfl
      · by_cases hq : 0 < Int.tdiv info.qty 2 <;>
          simp [phaseASymbol, hq, cancelBeforeSell, cancelBeforeSellFrom]
  · rcases holding with _ | info
    · by_cases hi : is_sync_ignored st sym now <;>
        simp [phaseBSymbol, hi, cancelBeforeSell, cancelBeforeSellFrom]
    · rcases curr with _ | c
      · by_cases hi : is_sync_ignored st sym now <;>
          simp [phaseBSymbol, hi, cancelBeforeSell, cancelBeforeSellFrom]
      · by_cases hi : is_sync_ignored st sym now
        · simp [phaseBSymbol, hi, cancelBeforeSell, cancelBeforeSellFrom]
        · simp only [phaseBSymbol, hi, Bool.false_eq_true, if_false]
          split_ifs <;>
            simp [cancelBeforeSell, cancelBeforeSellFrom]
  · by_cases hi : is_sync_ignored st sym now <;> simp [phaseCSymbol, hi, h]

/-- C5 witness: a symbol with an open order is skipped outright by
phase C. -/
theorem C5_cancel_attempted_before_sell_amended_witness :
    phaseCSymbol initStatus "TQQQ" "NASD" ["order1"] (some 90) none none 0
        1000 0 true true = ([], none, initStatus) :=
  (C5_cancel_attempted_before_sell_amended initStatus "TQQQ" "NASD" none none
    (some 90) none ["order1"] 0 1000 0 true true).2.2 (by simp)

/-- C7: in the closing-decision window a symbol in an ignore-sync window
or with any open order is skipped outright; otherwise, when price,
history and indicators are available and the trend-break exit does not
fire, a buy intent is queued exactly when the long-term filter (price
above SMA120), one of the cross-up or reclaim triggers, the strength
filter (ADX at least 25), and the 10-dollar floor on the needed amount
all hold; a queued intent carries the amount
`total_equity * 0.5 - virtual_qty * price`, the current price and the
real-quantity snapshot. -/
theorem C7_entry_rule_iff (st : StatusMgr) (sym exch : String)
    (openOrders : List String) (c low opn : ℚ) (ind : Inds) (real_qty : ℤ)
    (total_equity now : ℚ) (saveOk sendOk : Bool) :
    (is_sync_ignored st sym now = true →
      phaseCSymbol st sym exch openOrders (some c) (some (low, opn))
        (some ind) real_qty total_equity now saveOk sendOk = ([], none, st)) ∧
    (openOrders ≠ [] →
      phaseCSymbol st sym exch openOrders (some c) (some (low, opn))
        (some ind) real_qty total_equity now saveOk sendOk = ([], none, st)) ∧
    (is_sync_ignored st sym now = false → openOrders = [] →
      ¬ (0 < real_qty ∧ c < ind.SMA20) →
      (((phaseCSymbol st sym exch openOrders (some c) (some (low, opn))
            (some ind) real_qty total_equity now saveOk sendOk).2.1.isSome ↔
          ((ind.SMA120 < c ∧
              ((ind.PREV_CLOSE < ind.PREV_SMA20 ∧ ind.SMA20 < c) ∨
               (low < ind.BB_LOW ∧ ind.BB_LOW < c ∧ opn < c))) ∧
            25 ≤ ind.ADX) ∧
          10 < total_equity * (1 / 2) -
            (get_virtual_qty st sym real_qty now).1 * c) ∧
        (∀ b : BuyIntent,
          (phaseCSymbol st sym exch openOrders (some c) (some (low, opn))
              (some ind) real_qty total_equity now saveOk sendOk).2.1 =
            some b →
          b.amount = total_equity * (1 / 2) -
              (get_virtual_qty st sym real_qty now).1 * c ∧
            b.price = c ∧ b.qty = real_qty ∧ b.symbol = sym))) := by
  refine ⟨fun h => by simp [phaseCSymbol, h], fun h => ?_, fun h1 h2 h3 => ?_⟩
  · by_cases hi : is_sync_ignored st sym now <;> simp [phaseCSymbol, hi, h]
  · subst h2
    simp only [phaseCSymbol, h1, Bool.false_eq_true, if_false, if_neg h3]
    split_ifs with he hsig hadx hneed
    · refine ⟨⟨fun _ => ⟨⟨hsig, hadx⟩, hneed⟩, fun _ => rfl⟩, fun b hb => ?_⟩
      simp only [Option.some.injEq] at hb
      subst hb
      exact ⟨rfl, rfl, rfl, rfl⟩
    · exact ⟨⟨fun hfalse => absurd hfalse (by simp),
        fun hr => absurd hr.2 hneed⟩, fun b hb => by simp at hb⟩
    · exact ⟨⟨fun hfalse => absurd hfalse (by simp),
        fun hr => absurd hr.1.2 hadx⟩, fun b hb => by simp at hb⟩
    · exact ⟨⟨fun hfalse => absurd hfalse (by simp),
        fun hr => absurd hr.1.1 hsig⟩, fun b hb => by simp at hb⟩
    all_goals exact absurd trivial he

/-- C7 witness: with the cross-up trigger, all filters passing and no
pending buys, a target holding nothing queues an intent for half of the
1000-dollar equity. -/
theorem C7_entry_rule_iff_witness :
    ((phaseCSymbol initStatus "TQQQ" "NASD" [] (some 100) (some (93, 92))
        (some ⟨90, 50, 80, 95, 94, 92, 30, 105⟩) 0 1000 0 true true).2.1.isSome ↔
      (((90 : ℚ) < 100 ∧
          (((94 : ℚ) < 95 ∧ (90 : ℚ) < 100) ∨
           ((93 : ℚ) < 80 ∧ (80 : ℚ) < 100 ∧ (92 : ℚ) < 100))) ∧
        (25 : ℚ) ≤ 30) ∧
      (10 : ℚ) < 1000 * (1 / 2) -
        (get_virtual_qty initStatus "TQQQ" 0 0).1 * 100) ∧
    (∀ b : BuyIntent,
      (phaseCSymbol initStatus "TQQQ" "NASD" [] (some 100) (some (93, 92))
          (some ⟨90, 50, 80, 95, 94, 92, 30, 105⟩) 0 1000 0 true
          true).2.1 = some b →
      b.amount = 1000 * (1 / 2) -
          (get_virtual_qty initStatus "TQQQ" 0 0).1 * 100 ∧
        b.price = 100 ∧ b.qty = 0 ∧ b.symbol = "TQQQ") :=
  (C7_entry_rule_iff initStatus "TQQQ" "NASD" [] 100 93 92
    ⟨90, 50, 80, 95, 94, 92, 30, 105⟩ 0 1000 0 true true).2.2 (by decide) rfl
    (by norm_num)

/-- A slice list in which no slice follows a cutoff (`is_last`) slice:
the loop breaks right after executing such a slice. -/
def noSliceAfterLast : List TwapSlice → Bool
  | [] => true
  | s :: rest => if s.last then rest.isEmpty else noSliceAfterLast rest

/-- A slice list in which every two consecutive slices are separated by
the 150-second pause. -/
def sleepsBetween : List TwapSlice → Bool
  | [] => true
  | [_] => true
  | s :: s2 :: rest =>
    decide (s.sleepAfter = some 150) && sleepsBetween (s2 :: rest)

/-- C6: the TWAP run executes at most 3 slices, consecutive slices are
separated by 150-second pauses, and no slice runs after one that started
at or past the final pre-close marker; each slice `i` follows the
submission rule: every submission comes from a queued intent, converts
the chunk — a third of the intent amount, scaled to the whole remaining
`3 - i` thirds when the slice is at or past the cutoff — to
`int(chunk / price)` shares (truncation, which is the floor for the
nonnegative values that arise), submits only a positive share count at a
limit of `round(price * 1.05, 2)`, and records a virtual pending buy
exactly on send success; a 3000-dollar intent at a constant price of 10
buys 100 shares in each ordinary slice, and at a cutoff at slice index 1
the whole remaining 2000 dollars buy 200 shares in the final slice. -/
theorem C6_twap_slicing (buyList : List BuyIntent) (lastAt : Nat → Bool)
    (priceAt : Nat → String → Option ℚ) (sendOk : Nat → String → Bool) :
    (twapRun buyList lastAt priceAt sendOk).length ≤ 3 ∧
    noSliceAfterLast (twapRun buyList lastAt priceAt sendOk) = true ∧
    sleepsBetween (twapRun buyList lastAt priceAt sendOk) = true ∧
    (∀ s ∈ twapRun buyList lastAt priceAt sendOk,
      s.idx < 3 ∧ s.last = lastAt s.idx ∧
        s.subs = twapSubs buyList s.idx (lastAt s.idx) (priceAt s.idx)
          (sendOk s.idx)) ∧
    (∀ (i : Nat) (lastFlag : Bool) (pr : String → Option ℚ)
        (so : String → Bool) (sub : TwapSub),
      sub ∈ twapSubs buyList i lastFlag pr so →
      ∃ o ∈ buyList,
        sub.sym = o.symbol ∧
        sub.qty = truncQ ((o.amount / 3 *
            (if lastFlag then ((3 - i : ℕ) : ℚ) else 1)) /
          ((pr o.symbol).getD o.price)) ∧
        0 < sub.qty ∧
        sub.limit = pyRound2 (((pr o.symbol).getD o.price) * (105 / 100)) ∧
        sub.recorded = so o.symbol) ∧
    (∀ x : ℚ, 0 ≤ x → truncQ x = ⌊x⌋) ∧
    twapRun [⟨"TQQQ", "NASD", 3000, 10, 0⟩] (fun _ => false)
        (fun _ _ => some 10) (fun _ _ => true) =
      [⟨0, false, [⟨"TQQQ", 100, pyRound2 (10 * (105 / 100)), true⟩], some 150⟩,
       ⟨1, false, [⟨"TQQQ", 100, pyRound2 (10 * (105 / 100)), true⟩], some 150⟩,
       ⟨2, false, [⟨"TQQQ", 100, pyRound2 (10 * (105 / 100)), true⟩], none⟩] ∧
    twapRun [⟨"TQQQ", "NASD", 3000, 10, 0⟩] (fun i => decide (1 ≤ i))
        (fun _ _ => some 10) (fun _ _ => true) =
      [⟨0, false, [⟨"TQQQ", 100, pyRound2 (10 * (105 / 100)), true⟩], some 150⟩,
       ⟨1, true, [⟨"TQQQ", 200, pyRound2 (10 * (105 / 100)), true⟩], none⟩] := by
  refine ⟨?_, ?_, ?_, ?_, ?_, fun x hx => by simp [truncQ, hx], ?_, ?_⟩
  · rcases h0 : lastAt 0 <;> rcases h1 : lastAt 1 <;> rcases h2 : lastAt 2 <;>
      simp [twapRun, twapGo, h0, h1, h2]
  · rcases h0 : lastAt 0 <;> rcases h1 : lastAt 1 <;> rcases h2 : lastAt 2 <;>
      simp [twapRun, twapGo, h0, h1, h2, noSliceAfterLast]
  · rcases h0 : lastAt 0 <;> rcases h1 : lastAt 1 <;> rcases h2 : lastAt 2 <;>
      simp [twapRun, twapGo, h0, h1, h2, sleepsBetween]
  · intro s hs
    rcases h0 : lastAt 0 <;> rcases h1 : lastAt 1 <;> rcases h2 : lastAt 2 <;>
      simp [twapRun, twapGo, h0, h1, h2] at hs
    all_goals first
      | (rcases hs with hs | hs | hs <;> subst hs <;> simp [h0, h1, h2])
      | (rcases hs with hs | hs <;> subst hs <;> simp [h0, h1, h2])
      | (subst hs; simp [h0, h1, h2])
  · intro i lastFlag pr so sub hsub
    rw [twapSubs, List.mem_filterMap] at hsub
    obtain ⟨o, ho, heq⟩ := hsub
    simp only at heq
    by_cases hq : 0 < truncQ ((o.amount / 3 *
        (if lastFlag then ((3 - i : ℕ) : ℚ) else 1)) /
      ((pr o.symbol).getD o.price))
    · rw [if_pos hq] at heq
      obtain rfl := Option.some.inj heq
      exact ⟨o, ho, rfl, rfl, hq, rfl, rfl⟩
    · rw [if_neg hq] at heq
      exact absurd heq (by simp)
  · norm_num [twapRun, twapGo, twapSubs, truncQ, List.filterMap]
  · norm_num [twapRun, twapGo, twapSubs, truncQ, List.filterMap]

/-- C6 witness: the single submission of an ordinary slice at index 0 for
the 3000-dollar intent at price 10 comes from that intent, buys
`int(1000 / 10) = 100` shares at `round(10 * 1.05, 2)` and records the
pending buy. -/
theorem C6_twap_slicing_witness :
    ∃ o ∈ [(⟨"TQQQ", "NASD", 3000, 10, 0⟩ : BuyIntent)],
      (⟨"TQQQ", 100, pyRound2 (10 * (105 / 100)), true⟩ : TwapSub).sym =
        o.symbol ∧
      (⟨"TQQQ", 100, pyRound2 (10 * (105 / 100)), true⟩ : TwapSub).qty =
        truncQ ((o.amount / 3 * (if false then ((3 - 0 : ℕ) : ℚ) else 1)) /
          (((fun _ => some 10) o.symbol).getD o.price)) ∧
      (0 : ℤ) < (⟨"TQQQ", 100, pyRound2 (10 * (105 / 100)), true⟩ : TwapSub).qty ∧
      (⟨"TQQQ", 100, pyRound2 (10 * (105 / 100)), true⟩ : TwapSub).limit =
        pyRound2 ((((fun _ => some 10) o.symbol).getD o.price) * (105 / 100)) ∧
      (⟨"TQQQ", 100, pyRound2 (10 * (105 / 100)), true⟩ : TwapSub).recorded =
        (fun _ => true) o.symbol :=
  (C6_twap_slicing [⟨"TQQQ", "NASD", 3000, 10, 0⟩] (fun _ => false)
      (fun _ _ => some 10) (fun _ _ => true)).2.2.2.2.1 0 false
    (fun _ => some 10) (fun _ => true) ⟨"TQQQ", 100, pyRound2 (10 * (105 / 100)), true⟩
    (by norm_num [twapSubs, truncQ, List.filterMap])
